import Mathlib

/-
Verification of watcher.py: a shallow embedding of the watcher program
(watch definitions, path facts, alert archive, condition evaluation,
the check_and_alert run loop and the run_from_args pipeline), together
with theorems settling the specification claims.

Conventions of the embedding:
- Python floats (UNIX timestamps, ages) are modelled as rationals (ℚ),
  so that the unit conversions by division are exact.
- Python dicts are modelled as association lists with unique keys;
  dictGet / dictSet mirror d[k] lookup and d[k] = v upsert.
- External effects (os.stat, eval outcomes, smtplib sends, os.path.exists,
  time.time) are oracles collected in a WatcherEnv record; the control
  flow of the program around those effects is translated from the source.
-/

/-- The alert archive: a Python dict keyed by (watch_name, path) holding the
UNIX timestamp of the last alert for that pair. -/
abbrev Archive := List ((String × String) × ℚ)

/-- Python dict lookup d[k] on an association list: first (unique) matching key. -/
def dictGet {α β : Type} [DecidableEq α] : List (α × β) → α → Option β
  | [], _ => none
  | kv :: rest, k => if kv.1 = k then some kv.2 else dictGet rest k

/-- Python dict upsert d[k] = v: replace the value in place if the key exists,
append the new pair otherwise (insertion-order semantics of Python dicts). -/
def dictSet {α β : Type} [DecidableEq α] : List (α × β) → α → β → List (α × β)
  | [], k, v => [(k, v)]
  | kv :: rest, k, v => if kv.1 = k then (k, v) :: rest else kv :: dictSet rest k v

/-! ## WatcherPath (watcher.py lines 58-81)

`WatcherPath.__init__` stores the path and the result of `os.stat(path)`;
the age properties each read `time.time()` afresh.  The stat snapshot is
modelled by the stored `st_mtime`; each accessor takes the current time
`now` (the value of `time.time()` at that access) as an argument. -/

structure WatcherPath where
  path : String
  st_mtime : ℚ
  deriving DecidableEq

def WatcherPath.age_seconds (wp : WatcherPath) (now : ℚ) : ℚ :=
  now - wp.st_mtime

def WatcherPath.age_minutes (wp : WatcherPath) (now : ℚ) : ℚ :=
  wp.age_seconds now / 60

def WatcherPath.age_hours (wp : WatcherPath) (now : ℚ) : ℚ :=
  wp.age_minutes now / 60

def WatcherPath.age_days (wp : WatcherPath) (now : ℚ) : ℚ :=
  wp.age_hours now / 24

/-! ## WatcherArchive (watcher.py lines 84-113)

A namedtuple of (archive, watch_name, path) with derived properties. -/

structure WatcherArchive where
  archive : Archive
  watch_name : String
  path : String
  deriving DecidableEq

def WatcherArchive.last_alert_time (wa : WatcherArchive) : ℚ :=
  match dictGet wa.archive (wa.watch_name, wa.path) with
  | some t => t
  | none => 0

def WatcherArchive.last_alert_age_seconds (wa : WatcherArchive) (now : ℚ) : ℚ :=
  now - wa.last_alert_time

def WatcherArchive.last_alert_age_minutes (wa : WatcherArchive) (now : ℚ) : ℚ :=
  wa.last_alert_age_seconds now / 60

def WatcherArchive.last_alert_age_hours (wa : WatcherArchive) (now : ℚ) : ℚ :=
  wa.last_alert_age_minutes now / 60

def WatcherArchive.last_alert_age_days (wa : WatcherArchive) (now : ℚ) : ℚ :=
  wa.last_alert_age_hours now / 24

/-! ## is_prefixed (watcher.py lines 125-127)

The source reads `key.startswith(prefix) and key[n:] == '' or key[n:].isdigit()`
with n = len(prefix).  Python parses `a and b or c` as `(a and b) or c`,
and that grouping is kept here. -/

/-- Python str.isdigit(): the string is nonempty and every character is a digit
(ASCII digits; Python also accepts some Unicode digits, irrelevant here).
Python strings are sequences of code points, modelled as List Char. -/
def pyIsdigit (s : List Char) : Bool :=
  !s.isEmpty && s.all Char.isDigit

/-- Python str.startswith: the second argument is a prefix of the first. -/
def pyStartswith : List Char → List Char → Bool
  | _, [] => true
  | [], _ :: _ => false
  | c :: cs, d :: ds => (c = d) && pyStartswith cs ds

/-- Python slice key[n:] of a code-point sequence. -/
def pySliceFrom (s : List Char) (n : Nat) : List Char :=
  s.drop n

def is_prefixed (key pre : String) : Bool :=
  (pyStartswith key.data pre.data && (pySliceFrom key.data pre.data.length).isEmpty)
    || pyIsdigit (pySliceFrom key.data pre.data.length)

/-! ## Expression evaluation environment (watcher.py lines 213-219)

`check_and_alert` evaluates the condition with eval(func_expr, set-to-empty
globals, context) where context binds exactly `path` and `archive`.
CPython's eval inserts the `__builtins__` module into a globals dict that
lacks it, so a name in the expression resolves against the two supplied
locals and then against the full builtins namespace.  The model below
records the name-resolution surface of that call. -/

/-- The names bound in the locals mapping handed to eval (the `context`
dict built at watcher.py lines 214-217). -/
def suppliedBindings : List String :=
  ["path", "archive"]

/-- A representative subset of the CPython builtins namespace that eval
injects (as `__builtins__`) into an empty globals dict.  It includes
functions that perform I/O (`open`, `input`), import machinery
(`__import__`, usable for process control via the os module), dynamic
code execution (`eval`, `exec`, `compile`) and interpreter control
(`exit`, `quit`). -/
def pyBuiltins : List String :=
  ["open", "input", "__import__", "eval", "exec", "compile",
   "getattr", "setattr", "delattr", "globals", "locals", "vars",
   "breakpoint", "exit", "quit", "abs", "min", "max", "len", "type"]

inductive NameSource
  | localBinding
  | builtin
  deriving DecidableEq

/-- Name resolution inside eval(func_expr, empty-globals, context):
a name is looked up in the supplied locals, then in the globals dict,
which eval has populated with __builtins__. -/
def resolveName (name : String) : Option NameSource :=
  if name ∈ suppliedBindings then some NameSource.localBinding
  else if name ∈ pyBuiltins then some NameSource.builtin
  else none

/-! ## The run model (watcher.py check_and_alert, lines 205-238)

The loop body for one (watch, path) pair:

    watcher_path = WatcherPath(path)          -- os.stat; OSError propagates
    context = dict(path=.., archive=..)
    try: need_alert = eval(func_expr, set-to-empty-globals, context)
    except: log exception; continue           -- only eval is guarded
    if need_alert:
        email_template = emails[email_key]    -- KeyError propagates
        email_message = make_email(...)
        with smtplib.SMTP(..) as smtp: smtp.send_message(..)  -- SMTP errors propagate
        update_last_alert(watch_name, path, archive)
        logger.info(..)

External effects are oracles in WatcherEnv; an uncaught exception is
modelled as Except.error carrying the run state at the moment it is
raised (the in-memory state the aborted run leaves behind). -/

/-- Outcome of os.stat(path): a stat result carrying st_mtime, or an OSError. -/
inductive StatResult
  | ok (st_mtime : ℚ)
  | err
  deriving DecidableEq

/-- Outcome of eval(func_expr, set-to-empty-globals, context): the truthiness
of the produced value, or an exception. -/
inductive EvalResult
  | ok (b : Bool)
  | exn
  deriving DecidableEq

/-- Outcome of the smtplib.SMTP(...) connect and send_message call. -/
inductive SendResult
  | ok
  | err
  deriving DecidableEq

/-- The external world of one run: os.stat per path, the outcome of eval for a
given (func_expr, watch_name, path) and archive state, the outcome of the SMTP
send per (watch_name, path), the value of time.time() used by
update_last_alert, and os.path.exists per path. -/
structure WatcherEnv where
  stat : String → StatResult
  evalCond : String → String → String → Archive → EvalResult
  send : String → String → SendResult
  now : ℚ
  pathExists : String → Bool

/-- One watch built by watches_from_config (lines 156-160). -/
structure Watch where
  func_expr : String
  paths : List String
  email_key : String
  deriving DecidableEq

/-- Observable actions of a run, in program order. -/
inductive RunEvent
  | logEvalError (watch_name : String)
  | sendOk (watch_name path : String)
  | archiveUpdate (watch_name path : String)
  | logAlerted (watch_name : String)
  | loadedArchive
  | savedArchive
  deriving DecidableEq

structure RunState where
  events : List RunEvent
  archive : Archive
  deriving DecidableEq

/-- watcher.py lines 182-187: archive[(watch_name, path)] = time.time(). -/
def update_last_alert (watch_name path : String) (archive : Archive) (now : ℚ) : Archive :=
  dictSet archive (watch_name, path) now

/-- The check_and_alert loop body for one (watch, path) pair (lines 212-238). -/
def processPair (env : WatcherEnv) (emails : String → Option Unit)
    (watch_name : String) (w : Watch) (path : String) (st : RunState) :
    Except RunState RunState :=
  match env.stat path with
  | StatResult.err => Except.error st
  | StatResult.ok _ =>
    match env.evalCond w.func_expr watch_name path st.archive with
    | EvalResult.exn =>
      Except.ok ⟨st.events ++ [RunEvent.logEvalError watch_name], st.archive⟩
    | EvalResult.ok false => Except.ok st
    | EvalResult.ok true =>
      match emails w.email_key with
      | none => Except.error st
      | some _ =>
        match env.send watch_name path with
        | SendResult.err => Except.error st
        | SendResult.ok =>
          Except.ok ⟨st.events ++ [RunEvent.sendOk watch_name path,
                                   RunEvent.archiveUpdate watch_name path,
                                   RunEvent.logAlerted watch_name],
                     update_last_alert watch_name path st.archive env.now⟩

/-- Sequencing of the loop bodies; an uncaught exception short-circuits. -/
def runPairs (env : WatcherEnv) (emails : String → Option Unit) :
    List (String × Watch × String) → RunState → Except RunState RunState
  | [], st => Except.ok st
  | (wn, w, p) :: rest, st =>
    match processPair env emails wn w p st with
    | Except.ok st' => runPairs env emails rest st'
    | Except.error st' => Except.error st'

/-- The (watch, path) pairs of the two nested for loops of check_and_alert
(lines 210-212), flattened in iteration order. -/
def pairsOf (watches : List (String × Watch)) : List (String × Watch × String) :=
  watches.flatMap (fun nw => nw.2.paths.map (fun p => (nw.1, nw.2, p)))

/-- watcher.py lines 205-238.  The emails map is passed as a lookup keyed by
email_key; only presence of the key affects control flow here. -/
def check_and_alert (env : WatcherEnv) (emails : String → Option Unit)
    (watches : List (String × Watch)) (archive : Archive) :
    Except RunState RunState :=
  runPairs env emails (pairsOf watches) ⟨[], archive⟩

/-- In-memory state a run leaves behind, whether it returned or raised. -/
def resultState : Except RunState RunState → RunState
  | Except.ok st => st
  | Except.error st => st

/-! ## Archive persistence (watcher.py lines 240-250)

pickle is an external library; it is modelled as a token-level
serialization that, like pickle, round-trips the dict exactly.  Storage
is Option (List Tok): none is a missing file, some [] an empty file. -/

inductive Tok
  | nat (n : Nat)
  | str (s : String)
  | rat (q : ℚ)
  deriving DecidableEq

def encodeEntries : Archive → List Tok
  | [] => []
  | ((w, p), t) :: rest => Tok.str w :: Tok.str p :: Tok.rat t :: encodeEntries rest

/-- pickle.dump of the archive dict. -/
def pickleDump (ar : Archive) : List Tok :=
  Tok.nat ar.length :: encodeEntries ar

def decodeEntries : Nat → List Tok → Option (Archive × List Tok)
  | 0, toks => some ([], toks)
  | n + 1, Tok.str w :: Tok.str p :: Tok.rat t :: toks =>
    match decodeEntries n toks with
    | some (es, r) => some (((w, p), t) :: es, r)
    | none => none
  | _ + 1, _ => none

/-- pickle.load: fails (UnpicklingError) when the bytes are not a dump. -/
def pickleLoad (toks : List Tok) : Option Archive :=
  match toks with
  | Tok.nat n :: rest =>
    match decodeEntries n rest with
    | some (es, []) => some es
    | _ => none
  | _ => none

/-- watcher.py lines 240-246: unpickle when the file exists and is nonempty,
otherwise start with an empty dict. -/
def load_archive (storage : Option (List Tok)) : Except String Archive :=
  match storage with
  | none => Except.ok []
  | some toks =>
    if toks = [] then Except.ok []
    else
      match pickleLoad toks with
      | some ar => Except.ok ar
      | none => Except.error "UnpicklingError"

/-- watcher.py lines 248-250: pickle.dump into the archive file. -/
def save_archive (ar : Archive) : List Tok :=
  pickleDump ar

/-! ## Configuration (watcher.py lines 129-180, 261-291) -/

/-- The parsed configuration as run_from_args reads it: the split
[watcher] alerts list, the alert.<name> sections (ordered key/value
items), and the keys of the email-template dict built by
emails_from_config. -/
structure WatcherConfig where
  alerts : List String
  sections : String → Option (List (String × String))
  emailKeys : List String

/-- Body of the watches_from_config loop for one section (lines 146-160):
collect values of keys accepted by is_prefixed(key, "path"), then read
section["func"] and section["email"] (KeyError aborts). -/
def watchFromSection (items : List (String × String)) : Except String Watch :=
  let paths := (items.filter (fun kv => is_prefixed kv.1 "path")).map (fun kv => kv.2)
  match dictGet items "func" with
  | none => Except.error "KeyError func"
  | some fe =>
    match dictGet items "email" with
    | none => Except.error "KeyError email"
    | some ek => Except.ok ⟨fe, paths, ek⟩

/-- The watches_from_config loop (lines 141-161), with the watches dict
built so far as accumulator; a repeated name raises KeyError. -/
def watchesGo (cfg : WatcherConfig) :
    List String → List (String × Watch) → Except String (List (String × Watch))
  | [], acc => Except.ok acc
  | name :: rest, acc =>
    if (dictGet acc name).isSome then Except.error ("Duplicate key " ++ name)
    else
      match cfg.sections ("alert." ++ name) with
      | none => Except.error ("KeyError alert." ++ name)
      | some items =>
        match watchFromSection items with
        | Except.error e => Except.error e
        | Except.ok w => watchesGo cfg rest (acc ++ [(name, w)])

def watches_from_config (cfg : WatcherConfig) : Except String (List (String × Watch)) :=
  watchesGo cfg cfg.alerts []

/-- First loop of raise_for_sanity (lines 167-171): every email_key must be a
key of the emails dict. -/
def checkEmailKeys (emails : List String) : List (String × Watch) → Except String Unit
  | [] => Except.ok ()
  | nw :: rest =>
    if nw.2.email_key ∈ emails then checkEmailKeys emails rest
    else Except.error ("Invalid email key " ++ nw.2.email_key)

/-- Second loop of raise_for_sanity (lines 173-180): no empty path list, and
every declared path must exist. -/
def checkPaths (pathExists : String → Bool) : List (String × Watch) → Except String Unit
  | [] => Except.ok ()
  | nw :: rest =>
    if nw.2.paths = [] then Except.error "Empty paths."
    else if nw.2.paths.all pathExists then checkPaths pathExists rest
    else Except.error "FileNotFoundError"

/-- watcher.py lines 163-180. -/
def raise_for_sanity (emails : List String) (watches : List (String × Watch))
    (pathExists : String → Bool) : Except String Unit :=
  match checkEmailKeys emails watches with
  | Except.error e => Except.error e
  | Except.ok _ => checkPaths pathExists watches

/-- The emails dict of emails_from_config, viewed as the key-presence lookup
check_and_alert needs (template contents do not affect control flow there). -/
def emailsOf (cfg : WatcherConfig) : String → Option Unit :=
  fun k => if k ∈ cfg.emailKeys then some () else none

/-- watcher.py lines 261-291: parse watches, validate, load the archive, run
check_and_alert, save the archive.  The result carries the trace of
archive-lifecycle and per-pair events; an uncaught exception yields
Except.error with the events that had happened before the abort. -/
def run_from_args (cfg : WatcherConfig) (env : WatcherEnv) (storage : Option (List Tok)) :
    Except (String × List RunEvent) (List RunEvent × List Tok) :=
  match watches_from_config cfg with
  | Except.error e => Except.error (e, [])
  | Except.ok watches =>
    match raise_for_sanity cfg.emailKeys watches env.pathExists with
    | Except.error e => Except.error (e, [])
    | Except.ok _ =>
      match load_archive storage with
      | Except.error e => Except.error (e, [])
      | Except.ok archive =>
        match check_and_alert env (emailsOf cfg) watches archive with
        | Except.error st =>
          Except.error ("check_and_alert", RunEvent.loadedArchive :: st.events)
        | Except.ok st =>
          Except.ok (RunEvent.loadedArchive :: st.events ++ [RunEvent.savedArchive],
                     save_archive st.archive)

/-! ## Concrete inputs used by witnesses and counterexamples -/

/-- An emails mapping in which every key is present. -/
def emailsAll : String → Option Unit := fun _ => some ()

/-- Two watches; the first watch's only path has unreadable metadata
(os.stat raises), the second watch's condition is true and its send
would succeed. -/
def envC1 : WatcherEnv :=
  ⟨fun p => if p = "/gone" then StatResult.err else StatResult.ok 0,
   fun _ _ _ _ => EvalResult.ok true,
   fun _ _ => SendResult.ok,
   100,
   fun _ => true⟩

def watchC1a : Watch := ⟨"True", ["/gone"], "k"⟩

def watchC1b : Watch := ⟨"True", ["/ok"], "k"⟩

def watchesC1 : List (String × Watch) := [("w1", watchC1a), ("w2", watchC1b)]

/-- Environment whose SMTP send fails. -/
def envC3f : WatcherEnv :=
  ⟨fun _ => StatResult.ok 0, fun _ _ _ _ => EvalResult.ok true,
   fun _ _ => SendResult.err, 100, fun _ => true⟩

/-- Environment identical to envC3f except the SMTP send succeeds. -/
def envC3s : WatcherEnv :=
  ⟨fun _ => StatResult.ok 0, fun _ _ _ _ => EvalResult.ok true,
   fun _ _ => SendResult.ok, 100, fun _ => true⟩

def watchC3 : Watch := ⟨"cond", ["/f"], "k"⟩

/-- Environment in which evaluating the condition for path "/a" raises and
everything else succeeds. -/
def envC4 : WatcherEnv :=
  ⟨fun _ => StatResult.ok 0,
   fun _ _ p _ => if p = "/a" then EvalResult.exn else EvalResult.ok true,
   fun _ _ => SendResult.ok, 100, fun _ => true⟩

def watchC4 : Watch := ⟨"f", ["/a", "/b"], "k"⟩

def watchesC4 : List (String × Watch) := [("w1", watchC4)]

def arC7 : Archive := [(("w1", "/tmp/f"), 5)]

/-- Environment for a run that dispatches nothing (every condition false). -/
def envC7 : WatcherEnv :=
  ⟨fun _ => StatResult.ok 0, fun _ _ _ _ => EvalResult.ok false,
   fun _ _ => SendResult.ok, 100, fun _ => true⟩

/-- A configuration with a duplicate watch name in [watcher] alerts. -/
def cfgC5 : WatcherConfig :=
  ⟨["a", "a"],
   fun _ => some [("func", "1"), ("email", "k"), ("path", "/p")],
   ["k"]⟩

def envC5 : WatcherEnv :=
  ⟨fun _ => StatResult.ok 0, fun _ _ _ _ => EvalResult.ok false,
   fun _ _ => SendResult.ok, 0, fun _ => true⟩

/-! ## Helper lemmas -/

theorem dictGet_append {α β : Type} [DecidableEq α] (xs ys : List (α × β)) (k : α) :
    dictGet (xs ++ ys) k =
      match dictGet xs k with
      | some v => some v
      | none => dictGet ys k := by
  induction xs with
  | nil => simp [dictGet]
  | cons kv rest ih =>
    by_cases h : kv.1 = k
    · simp [dictGet, h]
    · simp [dictGet, h, ih]

theorem dictGet_dictSet_ne {α β : Type} [DecidableEq α]
    (l : List (α × β)) (k k' : α) (v : β) (h : k' ≠ k) :
    dictGet (dictSet l k v) k' = dictGet l k' := by
  have hne : ¬(k = k') := fun hh => h hh.symm
  induction l with
  | nil => simp [dictGet, dictSet, hne]
  | cons kv rest ih =>
    by_cases hk : kv.1 = k
    · simp [dictSet, hk, dictGet, hne]
    · by_cases hk' : kv.1 = k'
      · simp [dictSet, hk, dictGet, hk', h]
      · simp [dictSet, hk, dictGet, hk', ih]

theorem last_alert_time_of_absent (ar : Archive) (w p : String)
    (h : dictGet ar (w, p) = none) :
    (WatcherArchive.mk ar w p).last_alert_time = 0 := by
  unfold WatcherArchive.last_alert_time
  simp [h]

/-- The loop body of check_and_alert leaves the state in one of four shapes:
abort with the state unchanged, continue with the state unchanged, continue
having only logged an evaluation error, or continue having sent, updated the
archive and logged the alert. -/
theorem processPair_cases (env : WatcherEnv) (emails : String → Option Unit)
    (wn : String) (w : Watch) (p : String) (st : RunState) :
    processPair env emails wn w p st = Except.error st ∨
    processPair env emails wn w p st = Except.ok st ∨
    processPair env emails wn w p st =
      Except.ok ⟨st.events ++ [RunEvent.logEvalError wn], st.archive⟩ ∨
    processPair env emails wn w p st =
      Except.ok ⟨st.events ++ [RunEvent.sendOk wn p, RunEvent.archiveUpdate wn p,
                               RunEvent.logAlerted wn],
                 update_last_alert wn p st.archive env.now⟩ := by
  unfold processPair
  cases env.stat p with
  | err => exact Or.inl rfl
  | ok m =>
    cases env.evalCond w.func_expr wn p st.archive with
    | exn => exact Or.inr (Or.inr (Or.inl rfl))
    | ok b =>
      cases b with
      | false => exact Or.inr (Or.inl rfl)
      | true =>
        cases emails w.email_key with
        | none => exact Or.inl rfl
        | some u =>
          cases env.send wn p with
          | err => exact Or.inl rfl
          | ok => exact Or.inr (Or.inr (Or.inr rfl))

theorem runPairs_append (env : WatcherEnv) (emails : String → Option Unit)
    (xs ys : List (String × Watch × String)) (st : RunState) :
    runPairs env emails (xs ++ ys) st =
      match runPairs env emails xs st with
      | Except.ok st' => runPairs env emails ys st'
      | Except.error st' => Except.error st' := by
  induction xs generalizing st with
  | nil => simp [runPairs]
  | cons pr rest ih =>
    obtain ⟨wn, w, p⟩ := pr
    cases h : processPair env emails wn w p st with
    | ok st' => simp [runPairs, h, ih]
    | error st' => simp [runPairs, h]

/-- Trace/archive accounting for a run segment: the events already in the
state are preserved and extended by some delta; a key whose successful-send
event is not in the delta keeps its archive value; if no send succeeded the
archive is untouched; and the run loop never emits a savedArchive event. -/
theorem runPairs_delta (env : WatcherEnv) (emails : String → Option Unit)
    (pairs : List (String × Watch × String)) : ∀ st : RunState,
    ∃ delta : List RunEvent,
      (resultState (runPairs env emails pairs st)).events = st.events ++ delta ∧
      (∀ w p, RunEvent.sendOk w p ∉ delta →
        dictGet (resultState (runPairs env emails pairs st)).archive (w, p) =
          dictGet st.archive (w, p)) ∧
      ((∀ w p, RunEvent.sendOk w p ∉ delta) →
        (resultState (runPairs env emails pairs st)).archive = st.archive) ∧
      RunEvent.savedArchive ∉ delta := by
  induction pairs with
  | nil =>
    intro st
    exact ⟨[], by simp [runPairs, resultState], fun w p _ => rfl, fun _ => rfl, by simp⟩
  | cons pr rest ih =>
    intro st
    obtain ⟨wn, w, p⟩ := pr
    rcases processPair_cases env emails wn w p st with h | h | h | h
    · refine ⟨[], ?_, ?_, ?_, ?_⟩
      · simp [runPairs, h, resultState]
      · intro w' p' _
        simp [runPairs, h, resultState]
      · intro _
        simp [runPairs, h, resultState]
      · simp
    · have hr : runPairs env emails ((wn, w, p) :: rest) st = runPairs env emails rest st := by
        simp [runPairs, h]
      rw [hr]
      exact ih st
    · have hr : runPairs env emails ((wn, w, p) :: rest) st =
          runPairs env emails rest ⟨st.events ++ [RunEvent.logEvalError wn], st.archive⟩ := by
        simp [runPairs, h]
      rw [hr]
      obtain ⟨delta, h1, h2, h3, h4⟩ := ih ⟨st.events ++ [RunEvent.logEvalError wn], st.archive⟩
      refine ⟨RunEvent.logEvalError wn :: delta, ?_, ?_, ?_, ?_⟩
      · rw [h1]; simp
      · intro w' p' hm
        exact h2 w' p' (fun hc => hm (List.mem_cons_of_mem _ hc))
      · intro hall
        exact h3 (fun w' p' hc => hall w' p' (List.mem_cons_of_mem _ hc))
      · intro hc
        rcases List.mem_cons.mp hc with hh | hh
        · cases hh
        · exact h4 hh
    · have hr : runPairs env emails ((wn, w, p) :: rest) st =
          runPairs env emails rest
            ⟨st.events ++ [RunEvent.sendOk wn p, RunEvent.archiveUpdate wn p,
                           RunEvent.logAlerted wn],
             update_last_alert wn p st.archive env.now⟩ := by
        simp [runPairs, h]
      rw [hr]
      obtain ⟨delta, h1, h2, h3, h4⟩ :=
        ih ⟨st.events ++ [RunEvent.sendOk wn p, RunEvent.archiveUpdate wn p,
                          RunEvent.logAlerted wn],
            update_last_alert wn p st.archive env.now⟩
      refine ⟨RunEvent.sendOk wn p :: RunEvent.archiveUpdate wn p ::
                RunEvent.logAlerted wn :: delta, ?_, ?_, ?_, ?_⟩
      · rw [h1]; simp
      · intro w' p' hm
        have hnd : RunEvent.sendOk w' p' ∉ delta := fun hc => hm (by simp [hc])
        have hne : ((w', p') : String × String) ≠ (wn, p) := by
          intro hc
          injection hc with hw hp
          subst hw; subst hp
          exact hm (by simp)
        rw [h2 w' p' hnd]
        exact dictGet_dictSet_ne st.archive (wn, p) (w', p') env.now hne
      · intro hall
        exact absurd (by simp : RunEvent.sendOk wn p ∈
          RunEvent.sendOk wn p :: RunEvent.archiveUpdate wn p ::
            RunEvent.logAlerted wn :: delta) (hall wn p)
      · intro hc
        rcases List.mem_cons.mp hc with hh | hh
        · cases hh
        rcases List.mem_cons.mp hh with hh2 | hh2
        · cases hh2
        rcases List.mem_cons.mp hh2 with hh3 | hh3
        · cases hh3
        exact h4 hh3

/-- If the watches_from_config loop succeeds, the processed names were
pairwise distinct and none of them was already in the accumulator. -/
theorem watchesGo_ok_spec (cfg : WatcherConfig) :
    ∀ (alerts : List String) (acc ws : List (String × Watch)),
      watchesGo cfg alerts acc = Except.ok ws →
      alerts.Nodup ∧ ∀ a ∈ alerts, dictGet acc a = none := by
  intro alerts
  induction alerts with
  | nil =>
    intro acc ws _
    exact ⟨List.nodup_nil, by simp⟩
  | cons name rest ih =>
    intro acc ws h
    unfold watchesGo at h
    by_cases hdup : (dictGet acc name).isSome
    · rw [if_pos hdup] at h
      cases h
    · rw [if_neg hdup] at h
      have hgn : dictGet acc name = none := Option.not_isSome_iff_eq_none.mp hdup
      cases hsec : cfg.sections ("alert." ++ name) with
      | none => rw [hsec] at h; cases h
      | some items =>
        rw [hsec] at h
        dsimp only at h
        cases hwf : watchFromSection items with
        | error e => rw [hwf] at h; cases h
        | ok w =>
          rw [hwf] at h
          dsimp only at h
          obtain ⟨hnd, hacc⟩ := ih (acc ++ [(name, w)]) ws h
          have hname_not : name ∉ rest := by
            intro hmem
            have hx := hacc name hmem
            rw [dictGet_append, hgn] at hx
            simp [dictGet] at hx
          refine ⟨List.nodup_cons.mpr ⟨hname_not, hnd⟩, ?_⟩
          intro a ha
          rcases List.mem_cons.mp ha with rfl | ha'
          · exact hgn
          · have hx := hacc a ha'
            rw [dictGet_append] at hx
            cases hga : dictGet acc a with
            | none => rfl
            | some v => rw [hga] at hx; simp at hx

/-- If the email-key loop of raise_for_sanity passes, every watch's
email_key resolves in the emails mapping. -/
theorem checkEmailKeys_ok (emails : List String) :
    ∀ ws, checkEmailKeys emails ws = Except.ok () →
      ∀ nw ∈ ws, nw.2.email_key ∈ emails := by
  intro ws
  induction ws with
  | nil =>
    intro _ nw hmem
    cases hmem
  | cons nw0 rest ih =>
    intro h nw hmem
    unfold checkEmailKeys at h
    by_cases hk : nw0.2.email_key ∈ emails
    · rw [if_pos hk] at h
      rcases List.mem_cons.mp hmem with rfl | hm
      · exact hk
      · exact ih h nw hm
    · rw [if_neg hk] at h
      cases h

/-- If the path loop of raise_for_sanity passes, every watch has a nonempty
path list all of whose paths exist. -/
theorem checkPaths_ok (pe : String → Bool) :
    ∀ ws, checkPaths pe ws = Except.ok () →
      ∀ nw ∈ ws, nw.2.paths ≠ [] ∧ ∀ p ∈ nw.2.paths, pe p = true := by
  intro ws
  induction ws with
  | nil =>
    intro _ nw hmem
    cases hmem
  | cons nw0 rest ih =>
    intro h nw hmem
    unfold checkPaths at h
    by_cases he : nw0.2.paths = []
    · rw [if_pos he] at h
      cases h
    · rw [if_neg he] at h
      by_cases hall : nw0.2.paths.all pe
      · rw [if_pos hall] at h
        rcases List.mem_cons.mp hmem with rfl | hm
        · exact ⟨he, fun p hp => List.all_eq_true.mp hall p hp⟩
        · exact ih h nw hm
      · rw [if_neg hall] at h
        cases h

/-- raise_for_sanity raises when some watch has an unresolvable email key,
an empty path list, or a nonexistent path. -/
theorem raise_for_sanity_err (emails : List String) (ws : List (String × Watch))
    (pe : String → Bool)
    (h : ∃ nw ∈ ws, nw.2.email_key ∉ emails ∨ nw.2.paths = [] ∨
      ∃ p ∈ nw.2.paths, pe p = false) :
    ∃ e, raise_for_sanity emails ws pe = Except.error e := by
  unfold raise_for_sanity
  cases hek : checkEmailKeys emails ws with
  | error e => exact ⟨e, rfl⟩
  | ok u =>
    cases u
    cases hcp : checkPaths pe ws with
    | error e => exact ⟨e, rfl⟩
    | ok u2 =>
      cases u2
      exfalso
      obtain ⟨nw, hmem, hviol⟩ := h
      rcases hviol with hbad | hempty | ⟨p, hp, hpe⟩
      · exact hbad (checkEmailKeys_ok emails ws hek nw hmem)
      · exact (checkPaths_ok pe ws hcp nw hmem).1 hempty
      · have hx := (checkPaths_ok pe ws hcp nw hmem).2 p hp
        rw [hpe] at hx
        cases hx

theorem decodeEntries_encodeEntries :
    ∀ (ar : Archive) (r : List Tok),
      decodeEntries ar.length (encodeEntries ar ++ r) = some (ar, r) := by
  intro ar
  induction ar with
  | nil =>
    intro r
    simp [encodeEntries, decodeEntries]
  | cons e rest ih =>
    intro r
    obtain ⟨⟨w, p⟩, t⟩ := e
    simp [encodeEntries, decodeEntries, ih]

theorem pickleLoad_pickleDump (ar : Archive) : pickleLoad (pickleDump ar) = some ar := by
  unfold pickleDump pickleLoad
  have h := decodeEntries_encodeEntries ar []
  rw [List.append_nil] at h
  dsimp only
  rw [h]

/-- Load-after-save round trip of the archive persistence. -/
theorem load_save_roundtrip (ar : Archive) :
    load_archive (some (save_archive ar)) = Except.ok ar := by
  unfold load_archive save_archive
  have hne : pickleDump ar ≠ [] := by simp [pickleDump]
  dsimp only
  rw [if_neg hne, pickleLoad_pickleDump]

/-! ## Claims -/

/-- Claim C2 counterexample: the name `open` (an I/O-performing builtin) is
not one of the two explicitly supplied bindings, yet it resolves inside the
eval call, because eval injects __builtins__ into the empty globals dict.
This refutes the claim that the evaluation can use only the two supplied
bindings and cannot perform I/O. -/
theorem claim_C2_counterexample :
    resolveName "open" = some NameSource.builtin ∧
    "open" ∉ suppliedBindings ∧
    "open" ∈ pyBuiltins := by
  decide

/-- Claim C2 (amended): a name in the condition expression resolves exactly
when it is one of the two supplied bindings (path, archive) or a Python
builtin — eval(expr, set-to-empty-globals, context) injects __builtins__
into the empty globals, so builtins such as open and __import__ are
reachable and the no-I/O / no-extra-bindings guarantee does not hold. -/
theorem claim_C2_theorem (name : String) :
    (resolveName name).isSome = true ↔
      name ∈ suppliedBindings ∨ name ∈ pyBuiltins := by
  unfold resolveName
  by_cases h1 : name ∈ suppliedBindings
  · simp [h1]
  · by_cases h2 : name ∈ pyBuiltins <;> simp [h1, h2]

/-- Claim C6: for any (watchName, path) key absent from the archive,
last_alert_time returns 0; absence is not an error. -/
theorem claim_C6_theorem (ar : Archive) (w p : String)
    (h : dictGet ar (w, p) = none) :
    (WatcherArchive.mk ar w p).last_alert_time = 0 :=
  last_alert_time_of_absent ar w p h

theorem claim_C6_witness :
    dictGet ([] : Archive) ("w1", "/tmp/x") = none ∧
    (WatcherArchive.mk [] "w1" "/tmp/x").last_alert_time = 0 :=
  ⟨rfl, claim_C6_theorem [] "w1" "/tmp/x" rfl⟩

/-- Claim C8: for a readable path, age_seconds is now - st_mtime and the
other three age facts are its successive unit conversions by 60, 60, 24. -/
theorem claim_C8_theorem (wp : WatcherPath) (now : ℚ) :
    wp.age_seconds now = now - wp.st_mtime ∧
    wp.age_minutes now = wp.age_seconds now / 60 ∧
    wp.age_hours now = wp.age_minutes now / 60 ∧
    wp.age_days now = wp.age_hours now / 24 :=
  ⟨rfl, rfl, rfl, rfl⟩

/-- Claim C9: for a (watchName, path) key absent from the archive,
last_alert_age_seconds is now - 0, i.e. the full current UNIX timestamp, so
it exceeds any threshold below the current time. -/
theorem claim_C9_theorem (ar : Archive) (w p : String) (now : ℚ)
    (h : dictGet ar (w, p) = none) :
    (WatcherArchive.mk ar w p).last_alert_age_seconds now = now ∧
    ∀ thr : ℚ, thr < now →
      thr < (WatcherArchive.mk ar w p).last_alert_age_seconds now := by
  have h0 := last_alert_time_of_absent ar w p h
  constructor
  · unfold WatcherArchive.last_alert_age_seconds
    rw [h0, sub_zero]
  · intro thr hthr
    unfold WatcherArchive.last_alert_age_seconds
    rw [h0, sub_zero]
    exact hthr

theorem claim_C9_witness :
    dictGet ([] : Archive) ("w1", "/tmp/x") = none ∧
    (WatcherArchive.mk [] "w1" "/tmp/x").last_alert_age_seconds 1700000000 = 1700000000 :=
  ⟨rfl, (claim_C9_theorem [] "w1" "/tmp/x" 1700000000 rfl).1⟩

/-- Claim C10: evaluation of the code at the failing input.  Because Python
groups `a and b or c` as `(a and b) or c`, is_prefixed("mail9", "path")
is true although "mail9" does not start with "path" (its slice from
position 4 is the digit "9"), and watches_from_config therefore collects
the value of the non-path key "mail9" as a watch path. -/
theorem claim_C10_theorem :
    is_prefixed "mail9" "path" = true ∧
    pyStartswith "mail9".data "path".data = false ∧
    watchFromSection [("func", "1 < 2"), ("email", "k"), ("mail9", "/x"), ("path", "/y")] =
      Except.ok ⟨"1 < 2", ["/x", "/y"], "k"⟩ :=
  ⟨by decide, by decide, by rfl⟩

/-- Claim C3: (i) when the send for a pair fails, the loop body raises with
the state unchanged — nothing is recorded before or during the send; (ii) on
a successful send the archive update happens together with it, the trace
showing sendOk before archiveUpdate; (iii) over a whole run, a pair with no
successful-send event keeps its archive value; (iv) a later run over the
same pair, with the condition still true and the send now succeeding, sends
again and records the pair. -/
theorem claim_C3_theorem (env : WatcherEnv) (emails : String → Option Unit)
    (wn : String) (w : Watch) (p : String) :
    (∀ (st : RunState) (m : ℚ), env.stat p = StatResult.ok m →
      env.evalCond w.func_expr wn p st.archive = EvalResult.ok true →
      emails w.email_key = some () →
      env.send wn p = SendResult.err →
      processPair env emails wn w p st = Except.error st) ∧
    (∀ (st : RunState) (m : ℚ), env.stat p = StatResult.ok m →
      env.evalCond w.func_expr wn p st.archive = EvalResult.ok true →
      emails w.email_key = some () →
      env.send wn p = SendResult.ok →
      processPair env emails wn w p st =
        Except.ok ⟨st.events ++ [RunEvent.sendOk wn p, RunEvent.archiveUpdate wn p,
                                 RunEvent.logAlerted wn],
                   update_last_alert wn p st.archive env.now⟩) ∧
    (∀ (watches : List (String × Watch)) (ar : Archive) (w' p' : String),
      RunEvent.sendOk w' p' ∉ (resultState (check_and_alert env emails watches ar)).events →
      dictGet (resultState (check_and_alert env emails watches ar)).archive (w', p') =
        dictGet ar (w', p')) ∧
    (∀ (ar : Archive) (m : ℚ), w.paths = [p] →
      env.stat p = StatResult.ok m →
      env.evalCond w.func_expr wn p ar = EvalResult.ok true →
      emails w.email_key = some () →
      env.send wn p = SendResult.ok →
      check_and_alert env emails [(wn, w)] ar =
        Except.ok ⟨[RunEvent.sendOk wn p, RunEvent.archiveUpdate wn p,
                    RunEvent.logAlerted wn],
                   update_last_alert wn p ar env.now⟩) := by
  refine ⟨?_, ?_, ?_, ?_⟩
  · intro st m hstat heval hemail hsend
    unfold processPair
    rw [hstat, heval, hemail, hsend]
  · intro st m hstat heval hemail hsend
    unfold processPair
    rw [hstat, heval, hemail, hsend]
  · intro watches ar w' p' hmem
    obtain ⟨delta, h1, h2, _, _⟩ := runPairs_delta env emails (pairsOf watches) ⟨[], ar⟩
    have hd : (resultState (check_and_alert env emails watches ar)).events = delta := by
      rw [show check_and_alert env emails watches ar =
            runPairs env emails (pairsOf watches) ⟨[], ar⟩ from rfl, h1]
      simp
    apply h2
    rw [← hd]
    exact hmem
  · intro ar m hpaths hstat heval hemail hsend
    have hpairs : pairsOf [(wn, w)] = [(wn, w, p)] := by
      unfold pairsOf
      rw [show [(wn, w)].flatMap (fun nw => nw.2.paths.map (fun q => (nw.1, nw.2, q))) =
            w.paths.map (fun q => (wn, w, q)) from by simp, hpaths]
      simp
    have hpp : processPair env emails wn w p ⟨[], ar⟩ =
        Except.ok ⟨[RunEvent.sendOk wn p, RunEvent.archiveUpdate wn p, RunEvent.logAlerted wn],
                   update_last_alert wn p ar env.now⟩ := by
      unfold processPair
      rw [hstat, heval, hemail, hsend]
      rfl
    rw [show check_and_alert env emails [(wn, w)] ar =
          runPairs env emails (pairsOf [(wn, w)]) ⟨[], ar⟩ from rfl, hpairs]
    simp only [runPairs, hpp]

theorem claim_C3_witness :
    processPair envC3f emailsAll "w" watchC3 "/f" ⟨[], []⟩ = Except.error ⟨[], []⟩ ∧
    check_and_alert envC3s emailsAll [("w", watchC3)] [] =
      Except.ok ⟨[RunEvent.sendOk "w" "/f", RunEvent.archiveUpdate "w" "/f",
                  RunEvent.logAlerted "w"],
                 [(("w", "/f"), 100)]⟩ :=
  ⟨(claim_C3_theorem envC3f emailsAll "w" watchC3 "/f").1 ⟨[], []⟩ 0 rfl rfl rfl rfl,
   (claim_C3_theorem envC3s emailsAll "w" watchC3 "/f").2.2.2 [] 0 rfl rfl rfl rfl rfl⟩

/-- Claim C4: when evaluating the condition expression for a pair raises, the
exception is caught: the pair only logs an evaluation error, the archive is
untouched and nothing is sent for it, and the run continues with exactly the
remaining (watch, path) pairs. -/
theorem claim_C4_theorem (env : WatcherEnv) (emails : String → Option Unit)
    (watches : List (String × Watch)) (ar : Archive)
    (done rest : List (String × Watch × String)) (wn : String) (w : Watch) (p : String)
    (st : RunState) (m : ℚ)
    (hsplit : pairsOf watches = done ++ (wn, w, p) :: rest)
    (hdone : runPairs env emails done ⟨[], ar⟩ = Except.ok st)
    (hstat : env.stat p = StatResult.ok m)
    (heval : env.evalCond w.func_expr wn p st.archive = EvalResult.exn) :
    check_and_alert env emails watches ar =
      runPairs env emails rest ⟨st.events ++ [RunEvent.logEvalError wn], st.archive⟩ := by
  unfold check_and_alert
  rw [hsplit, runPairs_append, hdone]
  dsimp only
  have hpp : processPair env emails wn w p st =
      Except.ok ⟨st.events ++ [RunEvent.logEvalError wn], st.archive⟩ := by
    unfold processPair
    rw [hstat, heval]
  simp only [runPairs, hpp]

theorem claim_C4_witness :
    envC4.evalCond "f" "w1" "/a" ([] : Archive) = EvalResult.exn ∧
    check_and_alert envC4 emailsAll watchesC4 [] =
      runPairs envC4 emailsAll [("w1", watchC4, "/b")] ⟨[RunEvent.logEvalError "w1"], []⟩ :=
  ⟨by decide,
   claim_C4_theorem envC4 emailsAll watchesC4 [] [] [("w1", watchC4, "/b")]
     "w1" watchC4 "/a" ⟨[], []⟩ 0 (by decide) rfl rfl (by decide)⟩

/-- Claim C1 counterexample: a run over two watches in which the first
watch's only path has unreadable metadata.  The claim predicts the pair is
logged and skipped and the second watch still dispatches; the code instead
lets the os.stat exception propagate: the run aborts with empty trace (no
log, no send for the second watch, no completion). -/
theorem claim_C1_counterexample :
    check_and_alert envC1 emailsAll watchesC1 [] = Except.error ⟨[], []⟩ ∧
    RunEvent.sendOk "w2" "/ok" ∉
      (resultState (check_and_alert envC1 emailsAll watchesC1 [])).events ∧
    envC1.stat "/gone" = StatResult.err ∧
    envC1.evalCond watchC1b.func_expr "w2" "/ok" [] = EvalResult.ok true ∧
    envC1.send "w2" "/ok" = SendResult.ok :=
  ⟨rfl, by decide, by decide, by decide, by decide⟩

/-- Claim C1 (amended): when deriving the path facts for a pair fails
because os.stat raises, the exception is not caught: the pair is neither
logged nor skipped, no later pair is evaluated, check_and_alert aborts with
the state reached so far, and run_from_args then aborts without saving the
archive.  Only condition-evaluation failures are isolated per pair. -/
theorem claim_C1_theorem (env : WatcherEnv) (emails : String → Option Unit)
    (watches : List (String × Watch)) (ar : Archive)
    (done rest : List (String × Watch × String)) (wn : String) (w : Watch) (p : String)
    (st : RunState)
    (hsplit : pairsOf watches = done ++ (wn, w, p) :: rest)
    (hdone : runPairs env emails done ⟨[], ar⟩ = Except.ok st)
    (hstat : env.stat p = StatResult.err) :
    check_and_alert env emails watches ar = Except.error st ∧
    RunEvent.savedArchive ∉ st.events ∧
    (∀ (cfg : WatcherConfig) (storage : Option (List Tok)),
      emails = emailsOf cfg →
      watches_from_config cfg = Except.ok watches →
      raise_for_sanity cfg.emailKeys watches env.pathExists = Except.ok () →
      load_archive storage = Except.ok ar →
      run_from_args cfg env storage =
        Except.error ("check_and_alert", RunEvent.loadedArchive :: st.events)) := by
  have hpp : processPair env emails wn w p st = Except.error st := by
    unfold processPair
    rw [hstat]
  have hca : check_and_alert env emails watches ar = Except.error st := by
    unfold check_and_alert
    rw [hsplit, runPairs_append, hdone]
    dsimp only
    simp only [runPairs, hpp]
  refine ⟨hca, ?_, ?_⟩
  · obtain ⟨delta, h1, _, _, h4⟩ := runPairs_delta env emails done ⟨[], ar⟩
    have hres : resultState (runPairs env emails done ⟨[], ar⟩) = st := by
      rw [hdone]
      rfl
    rw [hres] at h1
    intro hmem
    rw [h1] at hmem
    rcases List.mem_append.mp hmem with hh | hh
    · simp at hh
    · exact h4 hh
  · intro cfg storage hem hwfc hrfs hload
    unfold run_from_args
    rw [hwfc]
    dsimp only
    rw [hrfs]
    dsimp only
    rw [hload]
    dsimp only
    rw [← hem, hca]

theorem claim_C1_witness :
    envC1.stat "/gone" = StatResult.err ∧
    check_and_alert envC1 emailsAll watchesC1 [] = Except.error ⟨[], []⟩ :=
  ⟨by decide,
   (claim_C1_theorem envC1 emailsAll watchesC1 [] [] [("w2", watchC1b, "/ok")]
     "w1" watchC1a "/gone" ⟨[], []⟩ (by decide) rfl (by decide)).1⟩

/-- Claim C5: a configuration with a duplicate watch name, or whose parsed
watches contain an unresolvable email key, an empty path list or a
nonexistent path, makes the run abort with an empty trace: no pair is
evaluated and the archive is neither loaded nor persisted. -/
theorem claim_C5_theorem (cfg : WatcherConfig) (env : WatcherEnv)
    (storage : Option (List Tok))
    (h : ¬cfg.alerts.Nodup ∨
      ∀ ws, watches_from_config cfg = Except.ok ws →
        ∃ nw ∈ ws, nw.2.email_key ∉ cfg.emailKeys ∨ nw.2.paths = [] ∨
          ∃ p ∈ nw.2.paths, env.pathExists p = false) :
    ∃ e, run_from_args cfg env storage = Except.error (e, []) := by
  cases hwfc : watches_from_config cfg with
  | error e =>
    refine ⟨e, ?_⟩
    unfold run_from_args
    rw [hwfc]
  | ok ws =>
    rcases h with hnd | hviol
    · exact absurd (watchesGo_ok_spec cfg cfg.alerts [] ws hwfc).1 hnd
    · obtain ⟨e, he⟩ := raise_for_sanity_err cfg.emailKeys ws env.pathExists (hviol ws hwfc)
      refine ⟨e, ?_⟩
      unfold run_from_args
      rw [hwfc]
      dsimp only
      rw [he]

theorem claim_C5_witness :
    ¬cfgC5.alerts.Nodup ∧
    ∃ e, run_from_args cfgC5 envC5 none = Except.error (e, []) :=
  ⟨by decide, claim_C5_theorem cfgC5 envC5 none (Or.inl (by decide))⟩

/-- Claim C7: loading a saved archive gives back the archive (so saving it
again persists state equal to the original), and a run that dispatches no
alert (no successful-send event) finishes with its in-memory archive equal
to the one it loaded. -/
theorem claim_C7_theorem (ar : Archive) (env : WatcherEnv)
    (emails : String → Option Unit) (watches : List (String × Watch)) (st : RunState) :
    load_archive (some (save_archive ar)) = Except.ok ar ∧
    (check_and_alert env emails watches ar = Except.ok st →
      (∀ w p, RunEvent.sendOk w p ∉ st.events) → st.archive = ar) := by
  refine ⟨load_save_roundtrip ar, ?_⟩
  intro hrun hns
  obtain ⟨delta, h1, _, h3, _⟩ := runPairs_delta env emails (pairsOf watches) ⟨[], ar⟩
  have hres : resultState (runPairs env emails (pairsOf watches) ⟨[], ar⟩) = st := by
    rw [show runPairs env emails (pairsOf watches) ⟨[], ar⟩ =
          check_and_alert env emails watches ar from rfl, hrun]
    rfl
  rw [hres] at h1 h3
  have hdelta : ∀ w p, RunEvent.sendOk w p ∉ delta := by
    intro w p hc
    apply hns w p
    rw [h1]
    exact List.mem_append.mpr (Or.inr hc)
  exact h3 hdelta

theorem claim_C7_witness :
    load_archive (some (save_archive arC7)) = Except.ok arC7 ∧
    (⟨[], arC7⟩ : RunState).archive = arC7 :=
  ⟨(claim_C7_theorem arC7 envC7 emailsAll [] ⟨[], arC7⟩).1,
   (claim_C7_theorem arC7 envC7 emailsAll [] ⟨[], arC7⟩).2 rfl
     (fun _ _ hc => List.not_mem_nil _ hc)⟩
